import Mathlib

/-!
Shallow embedding of `src/new1.py` (class `BuildingEnv10Floors`).

The external finite-element solver (openseespy) is modelled as an oracle
`SolverTrace`: for each time step it yields the return status of
`ops.analyze(1, dt)` and, for each node, the nodal displacement
`ops.nodeDisp(nd, 1)` read after that step.  Real-valued quantities are
modelled over `ℚ`.  The sequence of model-definition calls issued to the
solver is recorded as a list of `OpsCmd` values.
-/

namespace BuildingEnv10Floors

/-- Python's `abs` on a rational value, written out so that it evaluates by
kernel reduction. -/
def pyabs (q : ℚ) : ℚ := if q < 0 then -q else q

/-- Floor of a rational, computed with integer floor-division. -/
def ratFloor (q : ℚ) : ℤ := Int.fdiv q.num q.den

/-- Round-half-up on a rational (the rounding used when converting an exact
mantissa to six fractional digits). -/
def ratRound (q : ℚ) : ℤ := ratFloor (q + 1/2)

/-- One call to the external solver's model-definition API, as issued by
`run_opensees_analysis`. -/
inductive OpsCmd where
  | wipe : OpsCmd
  | model (ndm ndf : Nat) : OpsCmd
  | node (tag : Nat) (pos : ℚ) : OpsCmd
  | fix (tag dof : Nat) : OpsCmd
  | mass (tag : Nat) (m : ℚ) : OpsCmd
  | elasticMaterial (tag : Nat) (k : ℚ) : OpsCmd
  | twoNodeLink (tag nodeI nodeJ matTag dir : Nat) : OpsCmd
  | timeSeriesPath (tag : Nat) (dt : ℚ) (values : List ℚ) : OpsCmd
  | uniformExcitation (tag dir tsTag : Nat) : OpsCmd
  | rayleigh (aM bK bKinit bKcomm : ℚ) : OpsCmd
  | system (kind : String) : OpsCmd
  | numberer (kind : String) : OpsCmd
  | constraints (kind : String) : OpsCmd
  | integrator (kind : String) (gamma beta : ℚ) : OpsCmd
  | algorithm (kind : String) : OpsCmd
  | analysisKind (kind : String) : OpsCmd
  deriving DecidableEq

/-- The model-building part of `run_opensees_analysis` (steps 1–5 of the
Python method): the exact sequence of solver calls issued before the
time-stepping loop, for a given `floor_num`, time step `dt`, ground-motion
record `acc_data` and `damper_floor`. -/
def buildCommands (floor_num : Nat) (dt : ℚ) (acc_data : List ℚ)
    (damper_floor : Nat) : List OpsCmd :=
  [OpsCmd.wipe, OpsCmd.model 1 1]
  ++ (List.range (floor_num + 1)).map (fun i => OpsCmd.node (i + 1) ((i : ℚ) * 3))
  ++ [OpsCmd.fix 1 1]
  ++ (List.range floor_num).map (fun k => OpsCmd.mass (k + 2) 100000)
  ++ [OpsCmd.elasticMaterial 1 100000000]
  ++ (List.range (floor_num - 1)).map
       (fun k => OpsCmd.twoNodeLink (k + 1) (k + 2) (k + 3) 1 1)
  ++ (if 1 ≤ damper_floor ∧ damper_floor < floor_num then
        [OpsCmd.twoNodeLink floor_num damper_floor (damper_floor + 1) 1 1]
      else [])
  ++ [OpsCmd.timeSeriesPath 1 dt acc_data,
      OpsCmd.uniformExcitation 1 1 1,
      OpsCmd.rayleigh 0 0 0 0,
      OpsCmd.system "BandGeneral",
      OpsCmd.numberer "Plain",
      OpsCmd.constraints "Plain",
      OpsCmd.integrator "Newmark" (1/2) (1/4),
      OpsCmd.algorithm "Newton",
      OpsCmd.analysisKind "Transient"]

/-- Extract a `twoNodeLink` element command as `(tag, nodeI, nodeJ)`. -/
def linkOf : OpsCmd → Option (Nat × Nat × Nat)
  | OpsCmd.twoNodeLink tag i j _ _ => some (tag, i, j)
  | _ => none

/-- All `twoNodeLink` elements of a command sequence. -/
def linkElements (cmds : List OpsCmd) : List (Nat × Nat × Nat) :=
  cmds.filterMap linkOf

/-- The nine always-present inter-floor links of the 10-floor model:
element `i` joins nodes `i+1` and `i+2` for `i = 1..9`. -/
def interFloorLinks10 : List (Nat × Nat × Nat) :=
  (List.range 9).map (fun k => (k + 1, k + 2, k + 3))

/-- Oracle for the external solver's time-stepping behaviour:
`status t` is the return value of the `ops.analyze(1, dt)` call at loop
index `t`, and `disp t nd` is `ops.nodeDisp(nd, 1)` read after that call. -/
structure SolverTrace where
  status : Nat → Int
  disp : Nat → Nat → ℚ

/-- The per-floor update of `max_disps[index]`: keep the new displacement
only when its absolute value strictly exceeds the stored one (the stored
value keeps its sign). -/
def updateMax (cur d : ℚ) : ℚ := if pyabs d > pyabs cur then d else cur

/-- One successful loop iteration: update `max_disps[nd-2]` for every floor
node `nd = 2..floor_num+1`. -/
def recordFloors (tr : SolverTrace) (floor_num t : Nat) (m : Nat → ℚ) : Nat → ℚ :=
  fun j => if j < floor_num then updateMax (m j) (tr.disp t (j + 2)) else m j

/-- The time-stepping loop of `run_opensees_analysis` (step 6): starting at
loop index `t` with `r` iterations left and accumulator `m`, stop as soon as
`ops.analyze` returns non-zero, otherwise record the displacements and
continue. -/
def analysisLoop (tr : SolverTrace) (floor_num : Nat) : Nat → Nat → (Nat → ℚ) → (Nat → ℚ)
  | _, 0, m => m
  | t, r + 1, m =>
      if tr.status t ≠ 0 then m
      else analysisLoop tr floor_num (t + 1) r (recordFloors tr floor_num t m)

/-- The loop indices whose displacements are actually recorded: the maximal
prefix of `t, t+1, …` (at most `r` long) on which `status` is zero. -/
def recordedSteps (tr : SolverTrace) : Nat → Nat → List Nat
  | _, 0 => []
  | t, r + 1 => if tr.status t ≠ 0 then [] else t :: recordedSteps tr (t + 1) r

/-- Step 7 of `run_opensees_analysis`: maximum inter-story drift ratio,
`|max_disps[i+1] − max_disps[i]| / 3.0` maximised over
`i = 0..floor_num−2`, starting from `0.0`. -/
def maxStoryDrift (floor_num : Nat) (m : Nat → ℚ) : ℚ :=
  (List.range (floor_num - 1)).foldl
    (fun acc i =>
      if pyabs (m (i + 1) - m i) / 3 > acc then pyabs (m (i + 1) - m i) / 3 else acc) 0

/-- Everything `run_opensees_analysis` produces: the solver-command trace of
the build phase, the returned `alphavalue`, and the returned `max_disps`
(as a function on floor indices `0..floor_num−1`). -/
structure AnalysisResult where
  cmds : List OpsCmd
  alphavalue : ℚ
  max_disps : Nat → ℚ

/-- `BuildingEnv10Floors.run_opensees_analysis`: build the model, run the
time-history loop over `acc_data.length` steps, compute the maximum story
drift and `alphavalue = |max_story_drift − code_drift|`. -/
def run_opensees_analysis (floor_num : Nat) (dt code_drift : ℚ) (acc_data : List ℚ)
    (tr : SolverTrace) (damper_floor : Nat) : AnalysisResult :=
  let cmds := buildCommands floor_num dt acc_data damper_floor
  let max_disps := analysisLoop tr floor_num 0 acc_data.length (fun _ => 0)
  let msd := maxStoryDrift floor_num max_disps
  { cmds := cmds, alphavalue := pyabs (msd - code_drift), max_disps := max_disps }

/-- Constructor data of `BuildingEnv10Floors.__init__`: the loaded
ground-motion record (`num_steps` is its length), the time step, the code
drift limit, and the hard-coded floor count. -/
structure EnvConfig where
  acc_data : List ℚ
  dt : ℚ
  code_drift : ℚ
  floor_num : Nat

/-- The environment's mutable attributes. -/
structure EnvState where
  episode_count : Nat
  model_built : Bool
  last_alphavalue : ℚ

/-- `BuildingEnv10Floors.reset`: set `last_alphavalue` to `0.0` and return
the one-element observation `[0.0]`. -/
def reset (s : EnvState) : EnvState × List ℚ :=
  ({ s with last_alphavalue := 0 }, [0])

/-- `BuildingEnv10Floors.build_model`: wipe the solver and mark the model as
built. -/
def build_model (s : EnvState) : EnvState :=
  { s with model_built := true }

/-- The configuration produced by `__init__(accel_file, dt, code_drift)`:
`floor_num` is hard-coded to 10. -/
def initConfig (acc_data : List ℚ) (dt code_drift : ℚ) : EnvConfig :=
  { acc_data := acc_data, dt := dt, code_drift := code_drift, floor_num := 10 }

/-- The environment state right after `__init__` (which ends by calling
`reset`). -/
def initState : EnvState :=
  (reset { episode_count := 0, model_built := false, last_alphavalue := 0 }).1

/-- The visible state of the process's file system: the set of directories
that exist and, for every path, the list of lines the file holds (a missing
file reads as `[]`, matching append-mode opening which creates it). -/
structure FileSys where
  dirs : List String
  lines : String → List String

/-- Opening a file in append mode and writing one newline-terminated string:
the file gains exactly one line, every other file is untouched. -/
def appendLine (fs : FileSys) (name line : String) : FileSys :=
  { fs with lines := fun f => if f = name then fs.lines f ++ [line] else fs.lines f }

/-- `os.makedirs` guarded by `os.path.exists`. -/
def ensureDir (fs : FileSys) (d : String) : FileSys :=
  if d ∈ fs.dirs then fs else { fs with dirs := d :: fs.dirs }

/-- The decimal digit character for `n % 10`. -/
def digitChar (n : Nat) : Char := Char.ofNat (48 + n % 10)

/-- Number of decimal digits of the second argument; the first argument is
recursion fuel (call it with fuel = the number itself). -/
def digitLen : Nat → Nat → Nat
  | 0, _ => 1
  | fuel + 1, n => if n < 10 then 1 else digitLen fuel (n / 10) + 1

/-- The decimal exponent `e` with `10^e ≤ a < 10^(e+1)` for a positive
rational `a`, found from the digit lengths of numerator and denominator and
corrected by direct comparison. -/
def ilog10 (a : ℚ) : ℤ :=
  let c : ℤ := (digitLen a.num.natAbs a.num.natAbs : ℤ) - (digitLen a.den a.den : ℤ)
  if a < (10 : ℚ) ^ (c - 1) then c - 2
  else if a < (10 : ℚ) ^ c then c - 1
  else if a < (10 : ℚ) ^ (c + 1) then c
  else c + 1

/-- The seven-digit mantissa integer of `a` at exponent `e`:
`round(a · 10^(6−e))`, a value in `[10^6, 10^7]`. -/
def mantissaOf (a : ℚ) (e : ℤ) : Nat :=
  (ratRound (a * (10 : ℚ) ^ ((6 : ℤ) - e))).toNat

/-- Render a seven-digit mantissa integer as `d.dddddd`. -/
def mantissaString (m : Nat) : String :=
  String.mk [digitChar (m / 1000000), '.',
    digitChar (m / 100000), digitChar (m / 10000), digitChar (m / 1000),
    digitChar (m / 100), digitChar (m / 10), digitChar m]

/-- Render the exponent field of `%.6e`: an explicit sign and at least two
digits. -/
def expString (e : ℤ) : String :=
  (if e < 0 then "-" else "+")
  ++ (if e.natAbs < 10 then "0" ++ toString e.natAbs else toString e.natAbs)

/-- Python's `f"{x:.6e}"` on an exact rational value: sign, one leading
mantissa digit, six fractional mantissa digits, and a signed two-digit
exponent.  (The binary-float rounding of the underlying `float64` is
abstracted away; the exact value is formatted, with round-half-up at the
seventh mantissa digit.) -/
def formatE6 (q : ℚ) : String :=
  if q = 0 then "0.000000e+00"
  else
    (if q < 0 then "-" else "")
    ++ (let a := pyabs q
        let e0 := ilog10 a
        let m0 := mantissaOf a e0
        let e := if 10000000 ≤ m0 then e0 + 1 else e0
        let m := if 10000000 ≤ m0 then 1000000 else m0
        mantissaString m ++ "e" ++ expString e)

/-- The path of floor `i`'s log file, `floor_disp/floor{i}_disp.txt`. -/
def floorFile (i : Nat) : String :=
  "floor_disp/floor" ++ toString i ++ "_disp.txt"

/-- `BuildingEnv10Floors._save_floor_disps`: create the `floor_disp`
directory if absent, then append one formatted line per floor to that
floor's log file. -/
def save_floor_disps (floor_num : Nat) (m : Nat → ℚ) (fs : FileSys) : FileSys :=
  (List.range floor_num).foldl
    (fun acc i => appendLine acc (floorFile (i + 1)) (formatE6 (m i)))
    (ensureDir fs "floor_disp")

/-- Everything observable about one `step` call: the returned 4-tuple
(`next_state`, `reward`, `done`, empty info), the updated environment
attributes, the updated file system, whether the defensive
`build_model` rebuild ran, and the analysis results of the episode. -/
structure StepResult where
  next_state : List ℚ
  reward : ℚ
  done : Bool
  env : EnvState
  fs : FileSys
  calledBuildModel : Bool
  analysis : AnalysisResult

/-- `BuildingEnv10Floors.step`: increment the episode counter, rebuild the
solver model when the incremented counter is ≡ 1 (mod 10), run the analysis
with `damper_floor = action + 1`, set `reward = -alphavalue`, record
`last_alphavalue`, append the peak displacements to the log files, and
return with `done = True`. -/
def step (cfg : EnvConfig) (tr : SolverTrace) (s : EnvState) (fs : FileSys)
    (action : Nat) : StepResult :=
  let ec := s.episode_count + 1
  let s1 : EnvState := { s with episode_count := ec }
  let s2 := if ec % 10 = 1 then build_model s1 else s1
  let damper_floor := action + 1
  let res := run_opensees_analysis cfg.floor_num cfg.dt cfg.code_drift
    cfg.acc_data tr damper_floor
  { next_state := [res.alphavalue]
    reward := -res.alphavalue
    done := true
    env := { s2 with last_alphavalue := res.alphavalue }
    fs := save_floor_disps cfg.floor_num res.max_disps fs
    calledBuildModel := decide (ec % 10 = 1)
    analysis := res }

/-- Count of significant digits of a numeral rendered in scientific
notation: the mantissa's digit characters, leading zeros dropped. -/
def sigDigitCount (s : String) : Nat :=
  (((s.toList.takeWhile (fun c => c ≠ 'e')).filter (fun c => c.isDigit)).dropWhile
    (fun c => c = '0')).length

/-- A solver trace in which every step succeeds and every displacement is
zero. -/
def zeroTrace : SolverTrace := { status := fun _ => 0, disp := fun _ _ => 0 }

/-- A solver trace in which every step succeeds and every displacement is
−1. -/
def negTrace : SolverTrace := { status := fun _ => 0, disp := fun _ _ => -1 }

/-- A solver trace in which every step succeeds and every displacement is
1.234567. -/
def bigTrace : SolverTrace :=
  { status := fun _ => 0, disp := fun _ _ => 1234567 / 1000000 }

/-- A solver trace whose first `analyze` call succeeds and whose second
fails. -/
def failTrace1 : SolverTrace :=
  { status := fun t => if t = 0 then 0 else 1, disp := fun _ _ => 0 }

/-- A solver trace whose every `analyze` call fails. -/
def failAllTrace : SolverTrace := { status := fun _ => 1, disp := fun _ _ => 0 }

/-- A file system with no directories and every file empty. -/
def emptyFS : FileSys := { dirs := [], lines := fun _ => [] }

section Lemmas

attribute [local semireducible] Rat.mul Rat.inv Rat.sub Rat.add

set_option maxRecDepth 8000

theorem pyabs_eq_abs (q : ℚ) : pyabs q = |q| := by
  unfold pyabs
  by_cases h : q < 0
  · simp [h, abs_of_neg h]
  · simp [h, abs_of_nonneg (le_of_not_lt h)]

theorem abs_updateMax (c d : ℚ) : |updateMax c d| = max |c| |d| := by
  unfold updateMax
  rw [pyabs_eq_abs, pyabs_eq_abs]
  by_cases h : |d| > |c|
  · simp [h, max_eq_right (le_of_lt h)]
  · simp [h, max_eq_left (le_of_not_lt h)]

theorem updateMax_eq_or (c d : ℚ) : updateMax c d = c ∨ updateMax c d = d := by
  unfold updateMax
  by_cases h : pyabs d > pyabs c
  · right; simp [h]
  · left; simp [h]

theorem foldl_updateMax_abs (l : List ℚ) :
    ∀ c : ℚ, |l.foldl updateMax c| = l.foldl (fun a x => max a |x|) |c| := by
  induction l with
  | nil => intro c; rfl
  | cons x xs ih =>
      intro c
      rw [List.foldl_cons, List.foldl_cons, ih, abs_updateMax]

theorem foldl_updateMax_eq_or_mem (l : List ℚ) :
    ∀ c : ℚ, l.foldl updateMax c = c ∨ l.foldl updateMax c ∈ l := by
  induction l with
  | nil => intro c; left; rfl
  | cons x xs ih =>
      intro c
      rw [List.foldl_cons]
      rcases ih (updateMax c x) with h | h
      · rcases updateMax_eq_or c x with h2 | h2
        · left; rw [h, h2]
        · right; rw [h, h2]; exact List.mem_cons_self x xs
      · right; exact List.mem_cons_of_mem x h

theorem analysisLoop_eq_foldl (tr : SolverTrace) (fn : Nat) :
    ∀ (r t : Nat) (m : Nat → ℚ) (j : Nat), j < fn →
      analysisLoop tr fn t r m j
        = (recordedSteps tr t r).foldl (fun c u => updateMax c (tr.disp u (j + 2))) (m j) := by
  intro r
  induction r with
  | zero => intro t m j _; rfl
  | succ r ih =>
      intro t m j hj
      by_cases h : tr.status t ≠ 0
      · simp only [analysisLoop, recordedSteps, if_pos h, List.foldl_nil]
      · simp only [analysisLoop, recordedSteps, if_neg h, List.foldl_cons]
        rw [ih (t + 1) _ j hj]
        simp only [recordFloors, if_pos hj]

theorem analysisLoop_eq_of_ge (tr : SolverTrace) (fn : Nat) :
    ∀ (r t : Nat) (m : Nat → ℚ) (j : Nat), fn ≤ j →
      analysisLoop tr fn t r m j = m j := by
  intro r
  induction r with
  | zero => intro t m j _; rfl
  | succ r ih =>
      intro t m j hj
      by_cases h : tr.status t ≠ 0
      · simp only [analysisLoop, if_pos h]
      · simp only [analysisLoop, if_neg h]
        rw [ih (t + 1) _ j hj]
        simp only [recordFloors, if_neg (Nat.not_lt.mpr hj)]

theorem recordedSteps_all_ok (tr : SolverTrace) :
    ∀ (r t : Nat), (∀ s, s < r → tr.status (t + s) = 0) →
      recordedSteps tr t r = (List.range r).map (t + ·) := by
  intro r
  induction r with
  | zero => intro t _; rfl
  | succ r ih =>
      intro t h
      have h0 : tr.status t = 0 := by simpa using h 0 (Nat.succ_pos r)
      simp only [recordedSteps, h0, ne_eq, not_true_eq_false, if_neg, not_false_eq_true,
        reduceIte]
      rw [ih (t + 1) (fun s hs => by
        have := h (s + 1) (Nat.succ_lt_succ hs)
        simpa [Nat.add_assoc, Nat.add_comm 1 s] using this)]
      rw [List.range_succ_eq_map]
      simp [List.map_map, Function.comp, Nat.add_assoc, Nat.add_comm 1]

theorem recordedSteps_fail (tr : SolverTrace) :
    ∀ (k r t : Nat), (∀ s, s < k → tr.status (t + s) = 0) → tr.status (t + k) ≠ 0 →
      k < r → recordedSteps tr t r = (List.range k).map (t + ·) := by
  intro k
  induction k with
  | zero =>
      intro r t _ hfail hr
      obtain ⟨r1, rfl⟩ := Nat.exists_eq_succ_of_ne_zero (Nat.pos_iff_ne_zero.mp hr)
      simp only [recordedSteps, List.range_zero, List.map_nil]
      rw [if_pos (by simpa using hfail)]
  | succ k ih =>
      intro r t h hfail hr
      obtain ⟨r1, rfl⟩ := Nat.exists_eq_succ_of_ne_zero
        (Nat.pos_iff_ne_zero.mp (Nat.lt_of_le_of_lt (Nat.zero_le _) hr))
      have h0 : tr.status t = 0 := by simpa using h 0 (Nat.succ_pos k)
      simp only [recordedSteps, h0, ne_eq, not_true_eq_false, if_neg, not_false_eq_true,
        reduceIte]
      rw [ih r1 (t + 1) (fun s hs => by
            have := h (s + 1) (Nat.succ_lt_succ hs)
            simpa [Nat.add_assoc, Nat.add_comm 1 s] using this)
          (by simpa [Nat.add_assoc, Nat.add_comm 1 k] using hfail)
          (Nat.lt_of_succ_lt_succ hr)]
      rw [List.range_succ_eq_map]
      simp [List.map_map, Function.comp, Nat.add_assoc, Nat.add_comm 1]

theorem foldl_pickMax_init_le (f : Nat → ℚ) (l : List Nat) :
    ∀ c : ℚ, c ≤ l.foldl (fun acc i => if f i > acc then f i else acc) c := by
  induction l with
  | nil => intro c; exact le_refl c
  | cons x xs ih =>
      intro c
      rw [List.foldl_cons]
      refine le_trans ?_ (ih _)
      by_cases h : f x > c
      · simp [h, le_of_lt h]
      · simp [h]

theorem foldl_pickMax_le (f : Nat → ℚ) (l : List Nat) :
    ∀ (c : ℚ) (i : Nat), i ∈ l →
      f i ≤ l.foldl (fun acc i => if f i > acc then f i else acc) c := by
  induction l with
  | nil => intro c i h; exact absurd h (List.not_mem_nil i)
  | cons x xs ih =>
      intro c i h
      rw [List.foldl_cons]
      rcases List.mem_cons.mp h with rfl | h2
      · refine le_trans ?_ (foldl_pickMax_init_le f xs _)
        by_cases hx : f i > c
        · simp [hx]
        · simp [hx, le_of_not_lt hx]
      · exact ih _ i h2

theorem foldl_pickMax_eq_or_mem (f : Nat → ℚ) (l : List Nat) :
    ∀ c : ℚ, l.foldl (fun acc i => if f i > acc then f i else acc) c = c
      ∨ ∃ i ∈ l, l.foldl (fun acc i => if f i > acc then f i else acc) c = f i := by
  induction l with
  | nil => intro c; left; rfl
  | cons x xs ih =>
      intro c
      rw [List.foldl_cons]
      rcases ih (if f x > c then f x else c) with h | ⟨i, hi, h⟩
      · by_cases hx : f x > c
        · right; exact ⟨x, List.mem_cons_self x xs, by rw [h, if_pos hx]⟩
        · left; rw [h, if_neg hx]
      · right; exact ⟨i, List.mem_cons_of_mem x hi, h⟩

theorem ensureDir_lines (fs : FileSys) (d : String) :
    (ensureDir fs d).lines = fs.lines := by
  unfold ensureDir
  by_cases h : d ∈ fs.dirs <;> simp [h]

theorem ensureDir_mem (fs : FileSys) (d : String) : d ∈ (ensureDir fs d).dirs := by
  unfold ensureDir
  by_cases h : d ∈ fs.dirs <;> simp [h]

theorem foldl_appendLine_lines (names vals : Nat → String) (l : List Nat) :
    ∀ (fs : FileSys) (f : String),
      (l.foldl (fun acc i => appendLine acc (names i) (vals i)) fs).lines f
        = fs.lines f ++ (l.filter (fun i => names i = f)).map vals := by
  induction l with
  | nil => intro fs f; simp
  | cons x xs ih =>
      intro fs f
      rw [List.foldl_cons, ih]
      by_cases h : names x = f
      · simp [List.filter_cons, h, appendLine]
      · have h2 : ¬f = names x := fun hf => h hf.symm
        simp [List.filter_cons, h, h2, appendLine]

theorem foldl_appendLine_dirs (names vals : Nat → String) (l : List Nat) :
    ∀ fs : FileSys,
      (l.foldl (fun acc i => appendLine acc (names i) (vals i)) fs).dirs = fs.dirs := by
  induction l with
  | nil => intro fs; rfl
  | cons x xs ih => intro fs; rw [List.foldl_cons, ih]; rfl

theorem floorFile_filter (k : Nat) (hk : k < 10) :
    (List.range 10).filter (fun i => floorFile (i + 1) = floorFile (k + 1)) = [k] := by
  interval_cases k <;> decide

theorem save_floor_disps_lines (m : Nat → ℚ) (fs : FileSys) (k : Nat) (hk : k < 10) :
    (save_floor_disps 10 m fs).lines (floorFile (k + 1))
      = fs.lines (floorFile (k + 1)) ++ [formatE6 (m k)] := by
  unfold save_floor_disps
  rw [foldl_appendLine_lines (fun i => floorFile (i + 1)) (fun i => formatE6 (m i))]
  rw [ensureDir_lines, floorFile_filter k hk]
  rfl

theorem save_floor_disps_dirs (m : Nat → ℚ) (fs : FileSys) :
    "floor_disp" ∈ (save_floor_disps 10 m fs).dirs := by
  unfold save_floor_disps
  rw [foldl_appendLine_dirs (fun i => floorFile (i + 1)) (fun i => formatE6 (m i))]
  exact ensureDir_mem fs "floor_disp"

theorem maxStoryDrift_zero : maxStoryDrift 10 (fun _ => 0) = 0 := by
  simp [maxStoryDrift, List.range_succ, pyabs]

end Lemmas

section Claims

attribute [local semireducible] Rat.mul Rat.inv Rat.sub Rat.add

set_option maxRecDepth 8000

/-- C1: in every `run_opensees_analysis` call with `floor_num = 10`, a
`damper_floor` in `[1, 9]` builds exactly the 9 always-present inter-floor
`twoNodeLink` elements plus exactly one extra link between nodes
`damper_floor` and `damper_floor + 1` (10 link elements in total), while
`damper_floor = 10` builds exactly the 9 inter-floor links and no damper
element, with no error. -/
theorem C1_damper_link_elements :
    (∀ (dt cd : ℚ) (acc : List ℚ) (tr : SolverTrace) (d : Nat), 1 ≤ d → d ≤ 9 →
        linkElements (run_opensees_analysis 10 dt cd acc tr d).cmds
            = interFloorLinks10 ++ [(10, d, d + 1)]
          ∧ (linkElements (run_opensees_analysis 10 dt cd acc tr d).cmds).length = 10)
      ∧ ∀ (dt cd : ℚ) (acc : List ℚ) (tr : SolverTrace),
          linkElements (run_opensees_analysis 10 dt cd acc tr 10).cmds = interFloorLinks10
            ∧ (linkElements (run_opensees_analysis 10 dt cd acc tr 10).cmds).length = 9 := by
  constructor
  · intro dt cd acc tr d h1 h2
    interval_cases d <;> exact ⟨rfl, rfl⟩
  · intro dt cd acc tr
    exact ⟨rfl, rfl⟩

/-- Witness for C1 at `damper_floor = 5`. -/
theorem C1_damper_link_elements_witness :
    (1 : Nat) ≤ 5 ∧ (5 : Nat) ≤ 9
      ∧ linkElements (run_opensees_analysis 10 (1/50) (1/100) [(1 : ℚ)] zeroTrace 5).cmds
          = interFloorLinks10 ++ [(10, 5, 5 + 1)] :=
  ⟨by decide, by decide,
    (C1_damper_link_elements.1 (1/50) (1/100) [(1 : ℚ)] zeroTrace 5
      (by decide) (by decide)).1⟩

/-- C3: every `step` call returns `reward = −alphavalue` for the episode's
`alphavalue`, hence `reward ≤ 0`, and `reward = 0` iff the maximum story
drift equals `code_drift` exactly. -/
theorem C3_reward_negation :
    ∀ (acc : List ℚ) (dt cd : ℚ) (tr : SolverTrace) (s : EnvState) (fs : FileSys) (a : Nat),
      (step (initConfig acc dt cd) tr s fs a).reward
          = -(step (initConfig acc dt cd) tr s fs a).analysis.alphavalue
        ∧ (step (initConfig acc dt cd) tr s fs a).reward ≤ 0
        ∧ ((step (initConfig acc dt cd) tr s fs a).reward = 0
            ↔ maxStoryDrift 10 (step (initConfig acc dt cd) tr s fs a).analysis.max_disps
                = cd) := by
  intro acc dt cd tr s fs a
  have hα : (step (initConfig acc dt cd) tr s fs a).analysis.alphavalue
      = pyabs (maxStoryDrift 10
          (step (initConfig acc dt cd) tr s fs a).analysis.max_disps - cd) := rfl
  have hr : (step (initConfig acc dt cd) tr s fs a).reward
      = -(step (initConfig acc dt cd) tr s fs a).analysis.alphavalue := rfl
  refine ⟨hr, ?_, ?_⟩
  · rw [hr, hα, pyabs_eq_abs]
    exact neg_nonpos_of_nonneg (abs_nonneg _)
  · rw [hr, hα, pyabs_eq_abs, neg_eq_zero, abs_eq_zero, sub_eq_zero]

/-- C6: the defensive `build_model` rebuild runs exactly when the
post-increment episode counter is ≡ 1 (mod 10), and on no other episode. -/
theorem C6_rebuild_cadence :
    ∀ (cfg : EnvConfig) (tr : SolverTrace) (s : EnvState) (fs : FileSys) (a : Nat),
      ((step cfg tr s fs a).calledBuildModel = true ↔ (s.episode_count + 1) % 10 = 1)
        ∧ (step cfg tr s fs a).env.episode_count = s.episode_count + 1
        ∧ (step cfg tr s fs a).env.model_built
            = (if (s.episode_count + 1) % 10 = 1 then true else s.model_built) := by
  intro cfg tr s fs a
  refine ⟨by simp [step], ?_, ?_⟩
  · by_cases h : (s.episode_count + 1) % 10 = 1 <;> simp [step, h, build_model]
  · by_cases h : (s.episode_count + 1) % 10 = 1 <;> simp [step, h, build_model]

/-- C7: every `step` call returns `done = True`, for any action and any
prior environment state. -/
theorem C7_done_always :
    ∀ (cfg : EnvConfig) (tr : SolverTrace) (s : EnvState) (fs : FileSys) (a : Nat),
      (step cfg tr s fs a).done = true :=
  fun _ _ _ _ _ => rfl

/-- C8: `reset` sets the scalar observation `last_alphavalue` to 0 and
returns the one-element state `[0.0]`; it always succeeds, `build_model`
leaves the observation untouched, and the freshly constructed environment
starts with observation 0. -/
theorem C8_reset_observation :
    ∀ s : EnvState,
      (reset s).1.last_alphavalue = 0
        ∧ (reset s).2 = [0]
        ∧ (reset s).1.episode_count = s.episode_count
        ∧ (build_model s).last_alphavalue = s.last_alphavalue
        ∧ initState.last_alphavalue = 0 :=
  fun _ => ⟨rfl, rfl, rfl, rfl, rfl⟩

/-- C2 counterexample: under a trace whose only (successful) step reports
displacement −1 at every floor node, the returned `max_disps[0]` is −1,
whereas the running maximum absolute displacement of floor node 2 is 1; the
returned entry is therefore not the maximum of absolute values. -/
theorem C2_signed_entry_counterexample :
    (run_opensees_analysis 10 (1/50) (1/100) [(1 : ℚ)] negTrace 5).max_disps 0 = -1
      ∧ (recordedSteps negTrace 0 [(1 : ℚ)].length).foldl
          (fun a t => max a |negTrace.disp t (0 + 2)|) 0 = 1
      ∧ (-1 : ℚ) ≠ 1 := by
  refine ⟨by decide, ?_, by decide⟩
  simp [recordedSteps, negTrace]

/-- C2 (amended): every returned entry `max_disps[i]` is a signed
displacement whose absolute value equals the running maximum absolute
displacement of floor node `i+2` over the successfully analyzed steps
(computed independently per floor, starting from 0); the entry itself is
either 0 or one of that floor's recorded displacements, so it may be
negative rather than the maximum of absolute values. -/
theorem C2_max_disps_characterization :
    ∀ (dt cd : ℚ) (acc : List ℚ) (tr : SolverTrace) (d i : Nat), i < 10 →
      |(run_opensees_analysis 10 dt cd acc tr d).max_disps i|
          = (recordedSteps tr 0 acc.length).foldl
              (fun a t => max a |tr.disp t (i + 2)|) 0
        ∧ ((run_opensees_analysis 10 dt cd acc tr d).max_disps i = 0
            ∨ ∃ t ∈ recordedSteps tr 0 acc.length,
                (run_opensees_analysis 10 dt cd acc tr d).max_disps i
                  = tr.disp t (i + 2)) := by
  intro dt cd acc tr d i hi
  have hm : (run_opensees_analysis 10 dt cd acc tr d).max_disps i
      = (recordedSteps tr 0 acc.length).foldl
          (fun c u => updateMax c (tr.disp u (i + 2))) 0 :=
    analysisLoop_eq_foldl tr 10 acc.length 0 (fun _ => 0) i hi
  have hmap : (recordedSteps tr 0 acc.length).foldl
      (fun c u => updateMax c (tr.disp u (i + 2))) 0
        = ((recordedSteps tr 0 acc.length).map (fun u => tr.disp u (i + 2))).foldl
            updateMax 0 := by
    rw [List.foldl_map]
  constructor
  · rw [hm, hmap, foldl_updateMax_abs, abs_zero, List.foldl_map]
  · rw [hm, hmap]
    rcases foldl_updateMax_eq_or_mem
        ((recordedSteps tr 0 acc.length).map (fun u => tr.disp u (i + 2))) 0 with h | h
    · left; exact h
    · right
      obtain ⟨t, ht, hv⟩ := List.mem_map.mp h
      exact ⟨t, ht, hv.symm⟩

/-- Witness for the amended C2 at floor index 0 of an all-zero trace. -/
theorem C2_max_disps_characterization_witness :
    (0 : Nat) < 10
      ∧ |(run_opensees_analysis 10 (1/50) (1/100) [(1 : ℚ)] zeroTrace 5).max_disps 0|
          = (recordedSteps zeroTrace 0 [(1 : ℚ)].length).foldl
              (fun a t => max a |zeroTrace.disp t (0 + 2)|) 0 :=
  ⟨by decide,
    (C2_max_disps_characterization (1/50) (1/100) [(1 : ℚ)] zeroTrace 5 0 (by decide)).1⟩

/-- C4: the returned `alphavalue` is `|max_story_drift − code_drift|`,
where `max_story_drift` is the maximum over the 9 consecutive floor pairs
`(i, i+1)`, `i ∈ 0..8`, of `|max_disps[i+1] − max_disps[i]| / 3.0`: it is
an upper bound of all 9 drift ratios and is attained at one of them. -/
theorem C4_alphavalue_is_drift_deviation :
    ∀ (dt cd : ℚ) (acc : List ℚ) (tr : SolverTrace) (d : Nat),
      (run_opensees_analysis 10 dt cd acc tr d).alphavalue
          = |maxStoryDrift 10 (run_opensees_analysis 10 dt cd acc tr d).max_disps - cd|
        ∧ (∃ i, i ≤ 8 ∧ maxStoryDrift 10 (run_opensees_analysis 10 dt cd acc tr d).max_disps
            = |(run_opensees_analysis 10 dt cd acc tr d).max_disps (i + 1)
                - (run_opensees_analysis 10 dt cd acc tr d).max_disps i| / 3)
        ∧ ∀ i, i ≤ 8 →
            |(run_opensees_analysis 10 dt cd acc tr d).max_disps (i + 1)
                - (run_opensees_analysis 10 dt cd acc tr d).max_disps i| / 3
              ≤ maxStoryDrift 10 (run_opensees_analysis 10 dt cd acc tr d).max_disps := by
  intro dt cd acc tr d
  set m := (run_opensees_analysis 10 dt cd acc tr d).max_disps with hm
  have hα : (run_opensees_analysis 10 dt cd acc tr d).alphavalue
      = pyabs (maxStoryDrift 10 m - cd) := rfl
  have hnn : ∀ i : Nat, 0 ≤ pyabs (m (i + 1) - m i) / 3 := by
    intro i
    rw [pyabs_eq_abs]
    exact div_nonneg (abs_nonneg _) (by norm_num)
  have hub : ∀ i : Nat, i ≤ 8 → pyabs (m (i + 1) - m i) / 3 ≤ maxStoryDrift 10 m :=
    fun i hi => foldl_pickMax_le (fun i => pyabs (m (i + 1) - m i) / 3)
      (List.range 9) 0 i (List.mem_range.mpr (by omega))
  refine ⟨by rw [hα, pyabs_eq_abs], ?_, ?_⟩
  · have hcases : maxStoryDrift 10 m = 0
        ∨ ∃ i ∈ List.range 9, maxStoryDrift 10 m = pyabs (m (i + 1) - m i) / 3 :=
      foldl_pickMax_eq_or_mem (fun i => pyabs (m (i + 1) - m i) / 3) (List.range 9) 0
    rcases hcases with h | ⟨i, hi, h⟩
    · refine ⟨0, by omega, ?_⟩
      have h0 : pyabs (m (0 + 1) - m 0) / 3 = 0 :=
        le_antisymm ((hub 0 (by omega)).trans (le_of_eq h)) (hnn 0)
      rw [← pyabs_eq_abs, h, h0]
    · exact ⟨i, by have := List.mem_range.mp hi; omega, by rw [← pyabs_eq_abs]; exact h⟩
  · intro i hi
    rw [← pyabs_eq_abs]
    exact hub i hi

/-- Witness for C4: the drift ratio of the first floor pair never exceeds
the maximum story drift, at an all-zero trace. -/
theorem C4_alphavalue_is_drift_deviation_witness :
    (0 : Nat) ≤ 8
      ∧ |(run_opensees_analysis 10 (1/50) (1/100) [(1 : ℚ)] zeroTrace 5).max_disps (0 + 1)
          - (run_opensees_analysis 10 (1/50) (1/100) [(1 : ℚ)] zeroTrace 5).max_disps 0| / 3
        ≤ maxStoryDrift 10
            (run_opensees_analysis 10 (1/50) (1/100) [(1 : ℚ)] zeroTrace 5).max_disps :=
  ⟨by decide,
    (C4_alphavalue_is_drift_deviation (1/50) (1/100) [(1 : ℚ)] zeroTrace 5).2.2 0 (by decide)⟩

/-- C5: if the solver first fails at step `t0 < num_steps`, the loop records
exactly the steps before `t0`, the collected maxima equal those of a `t0`
step run, and `step` still completes the episode normally (`done`, reward,
state update and log write all happen, no exception). -/
theorem C5_early_termination_completes :
    ∀ (acc : List ℚ) (dt cd : ℚ) (tr : SolverTrace) (s : EnvState) (fs : FileSys)
      (a t0 : Nat),
      (∀ u, u < t0 → tr.status u = 0) → tr.status t0 ≠ 0 → t0 < acc.length →
      recordedSteps tr 0 acc.length = List.range t0
        ∧ analysisLoop tr 10 0 acc.length (fun _ => 0)
            = analysisLoop tr 10 0 t0 (fun _ => 0)
        ∧ (step (initConfig acc dt cd) tr s fs a).done = true
        ∧ (step (initConfig acc dt cd) tr s fs a).reward
            = -(step (initConfig acc dt cd) tr s fs a).analysis.alphavalue
        ∧ (step (initConfig acc dt cd) tr s fs a).env.last_alphavalue
            = (step (initConfig acc dt cd) tr s fs a).analysis.alphavalue
        ∧ (step (initConfig acc dt cd) tr s fs a).fs
            = save_floor_disps 10
                (step (initConfig acc dt cd) tr s fs a).analysis.max_disps fs := by
  intro acc dt cd tr s fs a t0 hok hfail hlt
  have hrs : recordedSteps tr 0 acc.length = List.range t0 := by
    have h := recordedSteps_fail tr t0 acc.length 0
      (fun u hu => by simpa using hok u hu) (by simpa using hfail) hlt
    simpa using h
  have hrs2 : recordedSteps tr 0 t0 = List.range t0 := by
    have h := recordedSteps_all_ok tr t0 0 (fun u hu => by simpa using hok u hu)
    simpa using h
  refine ⟨hrs, ?_, rfl, rfl, rfl, rfl⟩
  funext j
  by_cases hj : j < 10
  · rw [analysisLoop_eq_foldl tr 10 acc.length 0 _ j hj,
      analysisLoop_eq_foldl tr 10 t0 0 _ j hj, hrs, hrs2]
  · rw [analysisLoop_eq_of_ge tr 10 acc.length 0 _ j (Nat.le_of_not_lt hj),
      analysisLoop_eq_of_ge tr 10 t0 0 _ j (Nat.le_of_not_lt hj)]

/-- Witness for C5: a two-sample record whose second `analyze` call fails;
only step 0 is recorded. -/
theorem C5_early_termination_completes_witness :
    (∀ u, u < 1 → failTrace1.status u = 0)
      ∧ failTrace1.status 1 ≠ 0
      ∧ 1 < [(1 : ℚ), 1].length
      ∧ recordedSteps failTrace1 0 [(1 : ℚ), 1].length = List.range 1 :=
  ⟨by decide, by decide, by decide,
    (C5_early_termination_completes [(1 : ℚ), 1] (1/50) (1/100) failTrace1 initState
      emptyFS 0 1 (by decide) (by decide) (by decide)).1⟩

/-- C9 counterexample: in an episode whose peak displacement is 1.234567,
the line appended to `floor_disp/floor1_disp.txt` is `1.234567e+00`, which
carries 7 significant digits, not 6. -/
theorem C9_six_digits_counterexample :
    (step (initConfig [(1 : ℚ)] (1/50) (1/100)) bigTrace initState emptyFS 0).fs.lines
        "floor_disp/floor1_disp.txt" = ["1.234567e+00"]
      ∧ sigDigitCount "1.234567e+00" = 7
      ∧ sigDigitCount "1.234567e+00" ≠ 6 :=
  ⟨by decide, by decide, by decide⟩

/-- C9 (amended): every `step` call appends exactly one line — the `%.6e`
scientific-notation rendering of the floor's peak displacement, which shows
7 significant digits: one mantissa digit before the decimal point and six
after — to each of the 10 files `floor_disp/floor{1..10}_disp.txt`,
creating the directory if absent and never overwriting or truncating
existing content, so calling `step` twice appends two lines to each file. -/
theorem C9_append_one_line_per_floor :
    ∀ (acc : List ℚ) (dt cd : ℚ) (tr tr2 : SolverTrace) (s : EnvState) (fs : FileSys)
      (a a2 k : Nat), k < 10 →
      ((step (initConfig acc dt cd) tr s fs a).fs.lines (floorFile (k + 1))
          = fs.lines (floorFile (k + 1))
            ++ [formatE6 ((step (initConfig acc dt cd) tr s fs a).analysis.max_disps k)])
        ∧ "floor_disp" ∈ (step (initConfig acc dt cd) tr s fs a).fs.dirs
        ∧ (step (initConfig acc dt cd) tr2 (step (initConfig acc dt cd) tr s fs a).env
              (step (initConfig acc dt cd) tr s fs a).fs a2).fs.lines (floorFile (k + 1))
            = fs.lines (floorFile (k + 1))
              ++ [formatE6 ((step (initConfig acc dt cd) tr s fs a).analysis.max_disps k),
                  formatE6 ((step (initConfig acc dt cd) tr2
                      (step (initConfig acc dt cd) tr s fs a).env
                      (step (initConfig acc dt cd) tr s fs a).fs a2).analysis.max_disps k)] := by
  intro acc dt cd tr tr2 s fs a a2 k hk
  refine ⟨save_floor_disps_lines _ fs k hk, save_floor_disps_dirs _ fs, ?_⟩
  have h2 : (step (initConfig acc dt cd) tr2 (step (initConfig acc dt cd) tr s fs a).env
        (step (initConfig acc dt cd) tr s fs a).fs a2).fs.lines (floorFile (k + 1))
      = (step (initConfig acc dt cd) tr s fs a).fs.lines (floorFile (k + 1))
        ++ [formatE6 ((step (initConfig acc dt cd) tr2
            (step (initConfig acc dt cd) tr s fs a).env
            (step (initConfig acc dt cd) tr s fs a).fs a2).analysis.max_disps k)] :=
    save_floor_disps_lines _ _ k hk
  have h1 : (step (initConfig acc dt cd) tr s fs a).fs.lines (floorFile (k + 1))
      = fs.lines (floorFile (k + 1))
        ++ [formatE6 ((step (initConfig acc dt cd) tr s fs a).analysis.max_disps k)] :=
    save_floor_disps_lines _ fs k hk
  rw [h2, h1, List.append_assoc]
  rfl

/-- Witness for the amended C9 at floor index 0 with an all-zero trace. -/
theorem C9_append_one_line_per_floor_witness :
    (0 : Nat) < 10
      ∧ (step (initConfig [(1 : ℚ)] (1/50) (1/100)) zeroTrace initState
            emptyFS 0).fs.lines (floorFile (0 + 1))
          = emptyFS.lines (floorFile (0 + 1))
            ++ [formatE6 ((step (initConfig [(1 : ℚ)] (1/50) (1/100)) zeroTrace initState
                  emptyFS 0).analysis.max_disps 0)] :=
  ⟨by decide,
    (C9_append_one_line_per_floor [(1 : ℚ)] (1/50) (1/100) zeroTrace zeroTrace initState
      emptyFS 0 0 0 (by decide)).1⟩

/-- C10: if the solver fails on the very first `analyze` call, `max_disps`
is all zeros, the maximum story drift is 0, `alphavalue` equals
`code_drift` exactly, the reward equals `−code_drift`, and ten zero-valued
lines (`0.000000e+00`) are still appended to the per-floor log files. -/
theorem C10_first_analyze_failure :
    ∀ (acc : List ℚ) (dt cd : ℚ) (tr : SolverTrace) (s : EnvState) (fs : FileSys) (a : Nat),
      tr.status 0 ≠ 0 → 0 < acc.length → 0 ≤ cd →
      (∀ i, (step (initConfig acc dt cd) tr s fs a).analysis.max_disps i = 0)
        ∧ maxStoryDrift 10 (step (initConfig acc dt cd) tr s fs a).analysis.max_disps = 0
        ∧ (step (initConfig acc dt cd) tr s fs a).analysis.alphavalue = cd
        ∧ (step (initConfig acc dt cd) tr s fs a).reward = -cd
        ∧ formatE6 0 = "0.000000e+00"
        ∧ ∀ k, k < 10 →
            (step (initConfig acc dt cd) tr s fs a).fs.lines (floorFile (k + 1))
              = fs.lines (floorFile (k + 1)) ++ [formatE6 0] := by
  intro acc dt cd tr s fs a hfail hlen hcd
  have hloop : analysisLoop tr 10 0 acc.length (fun _ => 0) = (fun _ => 0) := by
    obtain ⟨l, hl⟩ := Nat.exists_eq_succ_of_ne_zero (Nat.pos_iff_ne_zero.mp hlen)
    rw [hl]
    simp only [analysisLoop, ne_eq, hfail, not_false_eq_true, if_pos]
  have hm : (step (initConfig acc dt cd) tr s fs a).analysis.max_disps
      = (fun _ => 0) := hloop
  have hmsd : maxStoryDrift 10 (step (initConfig acc dt cd) tr s fs a).analysis.max_disps
      = 0 := by rw [hm]; exact maxStoryDrift_zero
  have hα : (step (initConfig acc dt cd) tr s fs a).analysis.alphavalue = cd := by
    have h0 : (step (initConfig acc dt cd) tr s fs a).analysis.alphavalue
        = pyabs (maxStoryDrift 10
            (step (initConfig acc dt cd) tr s fs a).analysis.max_disps - cd) := rfl
    rw [h0, hmsd, pyabs_eq_abs, zero_sub, abs_neg, abs_of_nonneg hcd]
  refine ⟨fun i => by rw [hm], hmsd, hα, ?_, rfl, ?_⟩
  · have hr : (step (initConfig acc dt cd) tr s fs a).reward
        = -(step (initConfig acc dt cd) tr s fs a).analysis.alphavalue := rfl
    rw [hr, hα]
  · intro k hk
    have h1 : (step (initConfig acc dt cd) tr s fs a).fs.lines (floorFile (k + 1))
        = fs.lines (floorFile (k + 1))
          ++ [formatE6 ((step (initConfig acc dt cd) tr s fs a).analysis.max_disps k)] :=
      save_floor_disps_lines _ fs k hk
    rw [h1, hm]

/-- Witness for C10: a one-sample record with an immediately failing
solver; `alphavalue` equals the code drift limit 1/100. -/
theorem C10_first_analyze_failure_witness :
    failAllTrace.status 0 ≠ 0
      ∧ 0 < [(1 : ℚ)].length
      ∧ (0 : ℚ) ≤ 1/100
      ∧ (step (initConfig [(1 : ℚ)] (1/50) (1/100)) failAllTrace initState
          emptyFS 0).analysis.alphavalue = 1/100 :=
  ⟨by decide, by decide, by decide,
    (C10_first_analyze_failure [(1 : ℚ)] (1/50) (1/100) failAllTrace initState emptyFS 0
      (by decide) (by decide) (by decide)).2.2.1⟩

end Claims

end BuildingEnv10Floors
